import Mathlib

set_option linter.constructorNameAsVariable false

/-!
Verification of the routey parameter-extraction and schema-derivation core.

The Go source is shallowly embedded: reflected Go types become the inductive
`Ty` resolved against an environment of struct declarations and capability
tables (Go interface satisfaction), runtime values that parsers write through
pointers become `GoVal` threaded functionally, Go `error` values become
`Option GoErr` (with `none` playing the role of a nil error), and runtime
panics (out-of-bounds indexing, nil function calls) become an explicit
`.panicked` result.  Functions whose Go recursion is not structurally
terminating (the reflective walkers over type graphs) take an explicit fuel
argument and return `none` when the fuel runs out, so non-termination of the
original code is observable as `∀ fuel, f fuel x = none`.
-/

/-- Bit-width tag for Go's integer kinds (`int`, `int8`, ..., `int64` and the
unsigned variants).  `w` is the plain platform-sized `int`/`uint`, modelled as
64-bit. -/
inductive IntW where
  | w | w8 | w16 | w32 | w64
deriving DecidableEq, Repr

/-- Number of bits of an integer kind; Go's `strconv` treats bitSize 0 as the
platform int size, modelled as 64. -/
def IntW.bits : IntW → Nat
  | .w => 64
  | .w8 => 8
  | .w16 => 16
  | .w32 => 32
  | .w64 => 64

/-- Model of `reflect.Type` restricted to the kinds the core handles.  Struct
types are referenced by name and resolved against an environment, so that
self-referential struct graphs (`type Node struct { Next *Node }`) are
representable.  `unsupported` stands for the remaining Go kinds (chan, func,
complex, ...) that hit the synthesizer's default error branch. -/
inductive Ty where
  | bool
  | string
  | int (w : IntW)
  | uint (w : IntW)
  | float32
  | float64
  | slice (elem : Ty)
  | array (elem : Ty)
  | ptr (elem : Ty)
  | map (key : Ty) (value : Ty)
  | struct (name : String)
  | iface
  | unsupported (kindName : String)
deriving DecidableEq, Repr

/-- `reflect.Type.Name()`: primitives report their kind name, named structs
their declared name, and composite/unnamed kinds the empty string. -/
def Ty.goName : Ty → String
  | .bool => "bool"
  | .string => "string"
  | .int IntW.w => "int"
  | .int .w8 => "int8"
  | .int .w16 => "int16"
  | .int .w32 => "int32"
  | .int .w64 => "int64"
  | .uint IntW.w => "uint"
  | .uint .w8 => "uint8"
  | .uint .w16 => "uint16"
  | .uint .w32 => "uint32"
  | .uint .w64 => "uint64"
  | .float32 => "float32"
  | .float64 => "float64"
  | .struct n => n
  | _ => ""

/-- A `reflect.StructField`: name, declared type, its tag string (modelled as
key/value pairs, `reflect.StructTag.Get` semantics) and the embedded flag. -/
structure GoField where
  name : String
  type : Ty
  tags : List (String × String) := []
  anonymous : Bool := false
deriving DecidableEq, Repr

/-- `reflect.StructTag.Get`: missing keys read as the empty string. -/
def GoField.tagGet (f : GoField) (key : String) : String :=
  match f.tags.lookup key with
  | some v => v
  | none => ""

/-- A Go runtime value as seen through the `any`-typed target pointer the
parsers receive.  `vTextU` is a target implementing `encoding.TextUnmarshaler`
(its state is the last unmarshalled text, matching the repository's test
type); `vOther` is a target of any type none of the type switches match. -/
inductive GoVal where
  | vInt (w : IntW) (n : Int)
  | vUint (w : IntW) (n : Int)
  | vFloat32 (x : Rat)
  | vFloat64 (x : Rat)
  | vBool (b : Bool)
  | vString (s : String)
  | vTextU (state : String)
  | vOther (tag : String)
deriving DecidableEq, Repr

/-- Go error values (a non-nil `error`).  `wrap` is `fmt.Errorf("...: %w", e)`,
`wrapBoth` is `fmt.Errorf("%w: %w", a, b)`.  `invalidParam` is the walker's
`param.InvalidParamError` with its exported fields. -/
inductive GoErr where
  | sentinelInvalidParamType
  | errSyntax (fn lit : String)
  | errRange (fn lit : String)
  | errSchemaLoad
  | errSchemaNotFound
  | errNonStructArg
  | errNoParser
  | errUnknowType
  | errInvalidMapKey
  | errParamFailedToExtract
  | errInvalidStyle
  | errInvalidLocation
  | errInvalidLocForStyle
  | errInvalidTypeForLocation
  | msg (s : String)
  | invalidParam (Struct : Ty) (Field : GoField) (ParamType : Option Ty)
      (Message : String) (Err : String) (UnderlineAll : Bool)
  | invalidParamStyle (Struct : Ty) (Field : GoField) (Msg : String)
      (UnderlineMsg : String) (inner : GoErr)
  | handlerErr (inner : GoErr)
  | wrap (pre : String) (inner : GoErr)
  | wrapBoth (a b : GoErr)
deriving DecidableEq, Repr

/-- `errors.Is(e, target)` for a non-nil `e` against a sentinel target:
walks the `%w` unwrap tree looking for the sentinel. -/
def GoErr.is : GoErr → GoErr → Bool
  | e, t =>
    e = t ||
      match e with
      | .wrap _ inner => inner.is t
      | .wrapBoth a b => a.is t || b.is t
      | .invalidParamStyle _ _ _ _ inner => inner.is t
      | .handlerErr inner => inner.is t
      | _ => false

/-- `errors.Is` on a possibly-nil error (`Option GoErr`): nil matches
nothing. -/
def errIs (e : Option GoErr) (target : GoErr) : Bool :=
  match e with
  | none => false
  | some e => e.is target

/-- Rendering of the strconv errors consumed by diagnostics
(`(*strconv.NumError).Error()`); other errors render a placeholder, which no
claim depends on. -/
def GoErr.errorString : GoErr → String
  | .errSyntax fn lit => "strconv." ++ fn ++ ": parsing \x22" ++ lit ++ "\x22: invalid syntax"
  | .errRange fn lit => "strconv." ++ fn ++ ": parsing \x22" ++ lit ++ "\x22: value out of range"
  | .msg s => s
  | _ => "error"

/-! ### Model of the Go standard library `strconv` functions used by the parsers

Base-10 integer parsing is modelled exactly (syntax checking, value, range
clamping).  Only the decimal forms matter to any claim. -/

/-- Digits of a base-10 numeral; `none` when some character is not a digit or
the string is empty. -/
def Strconv.decimalValue : List Char → Option Nat
  | [] => none
  | cs => cs.foldl (fun acc c =>
      match acc with
      | none => none
      | some n => if c.isDigit then some (n * 10 + (c.toNat - '0'.toNat)) else none)
      (some 0)

/-- Split an optional leading sign from a numeral. -/
def Strconv.splitSign : List Char → (Bool × List Char)
  | '+' :: rest => (false, rest)
  | '-' :: rest => (true, rest)
  | cs => (false, cs)

/-- `strconv.ParseInt(s, 10, bitSize)`: returns the value and a nil error on
success; `(0, ErrSyntax)` on malformed input; the clamped min/max and
`ErrRange` when out of range.  bitSize 0 reads as the platform int width. -/
def Strconv.parseInt (s : String) (bitSize : Nat) : Int × Option GoErr :=
  let bits := if bitSize = 0 then 64 else bitSize
  let (neg, digits) := Strconv.splitSign s.data
  match Strconv.decimalValue digits with
  | none => (0, some (.errSyntax "ParseInt" s))
  | some n =>
    let v : Int := if neg then -(n : Int) else (n : Int)
    let lo : Int := -(2 ^ (bits - 1))
    let hi : Int := 2 ^ (bits - 1) - 1
    if v < lo then (lo, some (.errRange "ParseInt" s))
    else if hi < v then (hi, some (.errRange "ParseInt" s))
    else (v, none)

/-- `strconv.ParseUint(s, 10, bitSize)`. -/
def Strconv.parseUint (s : String) (bitSize : Nat) : Int × Option GoErr :=
  let bits := if bitSize = 0 then 64 else bitSize
  match s.data with
  | '+' :: _ => (0, some (.errSyntax "ParseUint" s))
  | '-' :: _ => (0, some (.errSyntax "ParseUint" s))
  | cs =>
    match Strconv.decimalValue cs with
    | none => (0, some (.errSyntax "ParseUint" s))
    | some n =>
      let hi : Int := 2 ^ bits - 1
      if hi < (n : Int) then (hi, some (.errRange "ParseUint" s))
      else ((n : Int), none)

/-- `strconv.ParseBool`: the fixed accepted forms; `(false, ErrSyntax)`
otherwise. -/
def Strconv.parseBool (s : String) : Bool × Option GoErr :=
  if s = "1" ∨ s = "t" ∨ s = "T" ∨ s = "TRUE" ∨ s = "true" ∨ s = "True" then
    (true, none)
  else if s = "0" ∨ s = "f" ∨ s = "F" ∨ s = "FALSE" ∨ s = "false" ∨ s = "False" then
    (false, none)
  else
    (false, some (.errSyntax "ParseBool" s))

/-- Simplified model of `strconv.ParseFloat`: plain decimal forms
`[+-]digits[.digits]` only (no exponents, hex floats or inf/NaN).  No claim
depends on the accepted grammar or the numeric value, only on the fact that
`ParseFloat` is called after `params[0]` has been read. -/
def Strconv.parseFloat (s : String) (_bitSize : Nat) : Rat × Option GoErr :=
  let (neg, body) := Strconv.splitSign s.data
  let (intPart, fracPart) :=
    match body.splitOn '.' with
    | [i] => (i, some ([] : List Char))
    | [i, f] => (i, some f)
    | _ => ([], none)
  match fracPart with
  | none => (0, some (.errSyntax "ParseFloat" s))
  | some f =>
    match Strconv.decimalValue intPart, (if f = [] then some 0 else Strconv.decimalValue f) with
    | some i, some fv =>
      let q : Rat := (i : Rat) + (fv : Rat) / (10 ^ f.length : Rat)
      (if neg then -q else q, none)
    | _, _ => (0, some (.errSyntax "ParseFloat" s))

/-- Truncating conversion of an arbitrary integer to a signed width, Go's
`int8(i)` etc. -/
def wrapSigned (bits : Nat) (i : Int) : Int :=
  (i + 2 ^ (bits - 1)) % 2 ^ bits - 2 ^ (bits - 1)

/-- Truncating conversion to an unsigned width, Go's `uint8(i)` etc. -/
def wrapUnsigned (bits : Nat) (i : Int) : Int :=
  i % 2 ^ bits

/-! ### `param/parse.go`: the built-in parsers and the chain combinator

A Go `Parser` is `func(value any, params []string) error`; it writes its
result through the target pointer.  The model threads the written value
explicitly and makes runtime panics (indexing `params[0]` on an empty slice)
an explicit outcome. -/

/-- Outcome of invoking a parser: a runtime panic, or the (possibly updated)
target value together with the returned error (`none` = nil). -/
inductive ParseOut where
  | panicked
  | ok (value : GoVal) (err : Option GoErr)
deriving DecidableEq, Repr

/-- `param.Parser`. -/
def ParserFn : Type := GoVal → List String → ParseOut

/-- `param.ParseInt`: reads `params[0]` unconditionally, then switches on the
target's dynamic type; non-integer targets keep the initial
`ErrInvalidParamType`.  On the matching branches Go always writes the
converted `strconv` result back, even alongside an error. -/
def ParseInt : ParserFn := fun value params =>
  match params with
  | [] => .panicked
  | param :: _ =>
    match value with
    | .vInt w _ =>
      let (i, err) := Strconv.parseInt param (if w = IntW.w then 0 else w.bits)
      .ok (.vInt w (wrapSigned w.bits i)) err
    | _ => .ok value (some .sentinelInvalidParamType)

/-- `param.ParseUint`. -/
def ParseUint : ParserFn := fun value params =>
  match params with
  | [] => .panicked
  | param :: _ =>
    match value with
    | .vUint w _ =>
      let (i, err) := Strconv.parseUint param (if w = IntW.w then 0 else w.bits)
      .ok (.vUint w (wrapUnsigned w.bits i)) err
    | _ => .ok value (some .sentinelInvalidParamType)

/-- `param.ParseFloat`. -/
def ParseFloat : ParserFn := fun value params =>
  match params with
  | [] => .panicked
  | param :: _ =>
    match value with
    | .vFloat32 _ =>
      let (x, err) := Strconv.parseFloat param 32
      .ok (.vFloat32 x) err
    | .vFloat64 _ =>
      let (x, err) := Strconv.parseFloat param 64
      .ok (.vFloat64 x) err
    | _ => .ok value (some .sentinelInvalidParamType)

/-- `param.ParseTextUnmarshaller`: the type assertion guards the read of
`params[0]`, so only a `TextUnmarshaler` target can panic on an empty slice.
The target's `UnmarshalText` stores the text, as the repository's test
unmarshaler does. -/
def ParseTextUnmarshaller : ParserFn := fun value params =>
  match value with
  | .vTextU _ =>
    match params with
    | [] => .panicked
    | param :: _ => .ok (.vTextU param) none
  | _ => .ok value (some .sentinelInvalidParamType)

/-- `param.ParseBool`: `params[0]` is read only inside the `*bool` branch. -/
def ParseBool : ParserFn := fun value params =>
  match value with
  | .vBool _ =>
    match params with
    | [] => .panicked
    | param :: _ =>
      let (b, err) := Strconv.parseBool param
      .ok (.vBool b) err
  | _ => .ok value (some .sentinelInvalidParamType)

/-- `param.ParseString`. -/
def ParseString : ParserFn := fun value params =>
  match value with
  | .vString _ =>
    match params with
    | [] => .panicked
    | param :: _ => .ok (.vString param) none
  | _ => .ok value (some .sentinelInvalidParamType)

/-- The loop body of `Parsers.Parse`: `err` starts as nil, each parser is run
in order, and the loop returns early on any result that is not
`ErrInvalidParamType`; when the list is exhausted the last error (nil for an
empty chain) is returned. -/
def parsersLoop : List ParserFn → GoVal → List String → Option GoErr → ParseOut
  | [], value, _, err => .ok value err
  | p :: ps, value, params, _ =>
    match p value params with
    | .panicked => .panicked
    | .ok value' err =>
      if errIs err .sentinelInvalidParamType then
        parsersLoop ps value' params err
      else
        .ok value' err

/-- `param.Parsers.Parse`: calls each parser until one returns no error or any
error other than `ErrInvalidParamType`. -/
def ParsersParse (ps : List ParserFn) (value : GoVal) (params : List String) : ParseOut :=
  parsersLoop ps value params none

/-! ### `param/param.go`: `Opts` and `Opts.Parse` -/

/-- A http request as the core sees it: the parsed query values
(`url.Values`, a map from name to the list of raw values) and the
path-variable lookup results.  Missing keys read as the nil slice /
empty string, as for Go maps. -/
structure Request where
  queryValues : List (String × List String) := []
  pathValues : List (String × String) := []
deriving Repr

/-- `url.Values` lookup: a missing key is the nil (empty) slice. -/
def Request.queryGet (r : Request) (name : String) : List String :=
  match r.queryValues.lookup name with
  | some vs => vs
  | none => []

/-- `param.Opts`: information to get and parse a param.  The `Pather` is the
path-variable lookup capability. -/
structure Opts where
  Name : String := ""
  Default : String := ""
  Parser : ParserFn := fun v _ => .ok v none
  Pather : String → Request → String := fun _ _ => ""

/-- `param.Opts.Parse`: an empty raw-value slice either falls back to the
configured default or silently returns nil without touching the target. -/
def Opts.Parse (o : Opts) (value : GoVal) (params : List String) : ParseOut :=
  if params.length = 0 ∧ o.Default ≠ "" then
    o.Parser value [o.Default]
  else if params.length = 0 then
    .ok value none
  else
    o.Parser value params

/-! ### `internal/stringz` and `param` naming -/

/-- Inner loop of `stringz.SplitByCapitals`: split before every uppercase
letter that follows a non-uppercase letter. -/
def splitByCapitalsGo (prev : Char) (curRev : List Char) : List Char → List (List Char)
  | [] => [curRev.reverse]
  | c :: rest =>
    if c.isUpper ∧ ¬ prev.isUpper then
      curRev.reverse :: splitByCapitalsGo c [c] rest
    else
      splitByCapitalsGo c (c :: curRev) rest

/-- `stringz.SplitByCapitals`. -/
def SplitByCapitals (s : String) : List String :=
  match s.data with
  | [] => []
  | c :: rest => (splitByCapitalsGo c [c] rest).map (fun l => String.mk l)

/-- ASCII lowering of `strings.ToLower` (Go field identifiers are ASCII);
written out explicitly so it evaluates in the kernel. -/
def charLowerGo (ch : Char) : Char :=
  if 'A' ≤ ch ∧ ch ≤ 'Z' then Char.ofNat (ch.toNat + 32) else ch

/-- Go `strings.ToLower`. -/
def stringToLowerGo (s : String) : String :=
  String.mk (s.data.map charLowerGo)

/-- `param.NamerCapitals`: lowercase the capital-separated chunks and join
them with underscores. -/
def NamerCapitals (name : String) (_style : String) : String :=
  String.intercalate "_" ((SplitByCapitals name).map stringToLowerGo)

/-- `param.Namer`. -/
def NamerFn : Type := String → String → String

/-- `param.NameFromField`: an explicit `name` tag wins over the namer. -/
def NameFromField (f : GoField) (namer : NamerFn) (source : String) : String :=
  let name := f.tagGet "name"
  if name = "" then namer f.name source else name

/-! ### The type walker (`param`: `InfoFromStruct` and friends)

Reflection is resolved against a `WalkEnv`: the struct declarations of the
program and the capability tables recording which types satisfy the `sourcer`,
`inner` and `CustomParser` interfaces and what `reflect.New` produces for a
type. -/

/-- `param.Info`: one recognized parameter. -/
structure Info where
  Name : String
  Source : String
  Default : String := ""
  -- the source's `Type` field; `Type` is reserved in Lean
  Type' : Ty
  Field : GoField
  Struct : Ty
  ParentFields : List GoField := []
deriving DecidableEq, Repr

/-- The reflection environment for the walker.  `structs` resolves a struct
name to its declared fields; `source`/`inner` record the `Source()` and
`Inner()` capabilities of a type (`none` = the interface is not implemented);
`zeroVal` is the value `reflect.New(typ).Interface()` dereferences to;
`customParse` is the `CustomParser` capability, checked by the source on both
the pointer and the element, returning the error of `CanParse` (`none` = nil
error). -/
structure WalkEnv where
  structs : String → Option (List GoField)
  source : Ty → Option String
  inner : Ty → Option Ty
  zeroVal : Ty → GoVal
  customParse : Ty → Option (ParserFn → GoField → GoVal → Option GoErr)

/-- `param.GetSourceAndType`: a type is a param if it implements `sourcer`;
its effective value type is its `Inner()` type when that is non-nil. -/
def GetSourceAndType (E : WalkEnv) (typ : Ty) : Option (String × Ty) :=
  match E.source typ with
  | none => none
  | some src =>
    let gotType := match E.inner typ with
      | some t => t
      | none => typ
    some (src, gotType)

/-- Outcome of a walker call: a runtime panic (a nil parser reaching a call
site), an error return, or a successful value. -/
inductive WalkOut (α : Type) where
  | panicked
  | error (e : GoErr)
  | ok (a : α)
deriving DecidableEq, Repr

/-- `param.canParseType`: probes the parser with a one-element `""` slice; any
result other than `ErrInvalidParamType` means the type is parseable, otherwise
the `CustomParser` capability is consulted.  A nil parser (`none`) is a nil
function call, a panic.  The Go function mutates the probed value through the
pointer; the model returns the updated value on success. -/
def canParseType (E : WalkEnv) (parser : Option ParserFn) (value : GoVal)
    (field : GoField) : WalkOut GoVal :=
  match parser with
  | none => .panicked
  | some p =>
    match p value [""] with
    | .panicked => .panicked
    | .ok value' err =>
      if ¬ errIs err .sentinelInvalidParamType then
        .ok value'
      else
        match E.customParse field.type with
        | some canParse =>
          match canParse p field value' with
          | none => .ok value'
          | some e => .error e
        | none => .error .sentinelInvalidParamType

/-- `param.ErrUnparsableDefault` (a plain string in the source). -/
def ErrUnparsableDefault : String := "default value cannot be parsed"

/-- The title line selection of `writeInvalidParamError`: an
`InvalidParamError` with an empty `Message` renders the generic
"cannot determine how to parse param" title, otherwise its `Message`. -/
def invalidParamErrTitle (message : String) : String :=
  if message = "" then "cannot determine how to parse param" else message

/-- The call shapes of the walker's mutual recursion
(`infoFromValue` / its field loop / `infoFromField` /
`getParamsFromStruct`), so the whole walk is one function structurally
recursive on fuel: every call consumes one unit. -/
inductive WalkCall where
  | value (structType : Ty)
  | fieldsLoop (structType : Ty) (fields : List GoField) (acc : List Info)
  | field (structType : Ty) (field : GoField)
  | fromStruct (field : GoField)

/-- The walker body; each case is the corresponding source function, and
`none` means the Go recursion did not return within the fuel budget. -/
def walkF (E : WalkEnv) (namer : NamerFn) (parser : Option ParserFn) :
    Nat → WalkCall → Option (WalkOut (List Info))
  | 0, _ => none
  -- `param.infoFromValue`: non-struct types fail with `ErrNonStructArg`,
  -- otherwise the infos of each field are concatenated in declaration order.
  | fuel + 1, .value structType =>
    match structType with
    | .struct n =>
      match E.structs n with
      | some fields => walkF E namer parser fuel (.fieldsLoop structType fields [])
      | none => some (.error (.wrap "unknown struct" .errNonStructArg))
    | _ => some (.error (.wrap ("got: " ++ structType.goName) .errNonStructArg))
  -- the field loop of `infoFromValue`: `params = append(params, info...)`.
  | _fuel + 1, .fieldsLoop _ [] acc => some (.ok acc)
  | fuel + 1, .fieldsLoop structType (field :: rest) acc =>
    match walkF E namer parser fuel (.field structType field) with
    | none => none
    | some .panicked => some .panicked
    | some (.error e) => some (.error e)
    | some (.ok infos) =>
      walkF E namer parser fuel (.fieldsLoop structType rest (acc ++ infos))
  -- `param.infoFromField`: a field whose type implements the source
  -- capability is a leaf parameter (validated for parseability and eager
  -- default parsing); any other field is delegated to
  -- `getParamsFromStruct`.
  | fuel + 1, .field structType field =>
    match GetSourceAndType E field.type with
    | none => walkF E namer parser fuel (.fromStruct field)
    | some (source, typ) =>
      let value := E.zeroVal typ
      match canParseType E parser value field with
      | .panicked => some .panicked
      | .error e =>
        -- `errors.As(err, &want)` for `*InvalidParamError`: pass it through,
        -- otherwise report the field as unparseable.
        match e with
        | .invalidParam .. => some (.error e)
        | _ => some (.error (.invalidParam structType field (some typ) "" "" false))
      | .ok value' =>
        let defaultValue := field.tagGet "default"
        let mkInfo : WalkOut (List Info) :=
          .ok [{ Name := NameFromField field namer source
                 Source := source
                 Default := defaultValue
                 Type' := typ
                 Field := field
                 Struct := structType }]
        if defaultValue ≠ "" then
          match parser with
          | none => some .panicked
          | some p =>
            match p value' [defaultValue] with
            | .panicked => some .panicked
            | .ok _ (some e) =>
              some (.error (.invalidParam structType field (some typ)
                (ErrUnparsableDefault ++ ": " ++ defaultValue) e.errorString false))
            | .ok _ none => some mkInfo
        else
          some mkInfo
  -- `param.getParamsFromStruct`: requires a parser, silently skips
  -- non-struct fields, and appends the containing field to each child's
  -- `ParentFields`.
  | fuel + 1, .fromStruct field =>
    if parser.isNone then
      some (.error .errNoParser)
    else
      match field.type with
      | .struct _ =>
        match walkF E namer parser fuel (.value field.type) with
        | none => none
        | some .panicked => some .panicked
        | some (.error e) => some (.error e)
        | some (.ok infos) =>
          some (.ok (infos.map fun info =>
            { info with ParentFields := info.ParentFields ++ [field] }))
      | _ => some (.ok [])

/-- `param.infoFromValue`, fuelled. -/
def infoFromValueF (E : WalkEnv) (fuel : Nat) (structType : Ty)
    (namer : NamerFn) (parser : Option ParserFn) : Option (WalkOut (List Info)) :=
  walkF E namer parser fuel (.value structType)

/-- `param.infoFromField`, fuelled. -/
def infoFromFieldF (E : WalkEnv) (fuel : Nat) (structType : Ty)
    (field : GoField) (namer : NamerFn) (parser : Option ParserFn) :
    Option (WalkOut (List Info)) :=
  walkF E namer parser fuel (.field structType field)

/-- `param.getParamsFromStruct`, fuelled. -/
def getParamsFromStructF (E : WalkEnv) (fuel : Nat) (field : GoField)
    (namer : NamerFn) (parser : Option ParserFn) : Option (WalkOut (List Info)) :=
  walkF E namer parser fuel (.fromStruct field)

/-- `param.InfoFromStruct[T]`, fuelled. -/
def InfoFromStructF (E : WalkEnv) (fuel : Nat) (structType : Ty)
    (namer : NamerFn) (parser : Option ParserFn) : Option (WalkOut (List Info)) :=
  infoFromValueF E fuel structType namer parser

/-! ### `jsonschema/schema.go`: the schema synthesizer

The external OpenAPI document object model (`openapi.Schema`,
`openapi.RefOrSpec`, `openapi.SingleOrArray`) is the spec's "external
schema-document data structure the core populates through a narrow
interface"; it is modelled by `OASchema`/`OARefOr` below with exactly the
fields and operations the core uses.  A nil `SingleOrArray` and an empty one
are both the empty type list; `SingleOrArray.Add` appends.  In-place
mutation through the shared pointer is modelled by a functional update of
the returned schema. -/

mutual
/-- The `openapi.Schema` fields the synthesizer reads or writes. -/
inductive OASchema where
  | mk (type : List String) (format : String) (minimum : Option Int)
      (properties : List (String × OARefOr)) (required : List String)
      (items : Option OARefOr) (additionalProperties : Option OARefOr)
      (default : Option String) (description : String) : OASchema
/-- `openapi.RefOrSpec[openapi.Schema]`. -/
inductive OARefOr where
  | ref (path : String) : OARefOr
  | spec (s : OASchema) : OARefOr
end

def OASchema.type : OASchema → List String
  | .mk t _ _ _ _ _ _ _ _ => t

def OASchema.format : OASchema → String
  | .mk _ f _ _ _ _ _ _ _ => f

def OASchema.minimum : OASchema → Option Int
  | .mk _ _ m _ _ _ _ _ _ => m

def OASchema.properties : OASchema → List (String × OARefOr)
  | .mk _ _ _ p _ _ _ _ _ => p

def OASchema.required : OASchema → List String
  | .mk _ _ _ _ r _ _ _ _ => r

def OASchema.items : OASchema → Option OARefOr
  | .mk _ _ _ _ _ i _ _ _ => i

def OASchema.additionalProperties : OASchema → Option OARefOr
  | .mk _ _ _ _ _ _ a _ _ => a

def OASchema.default : OASchema → Option String
  | .mk _ _ _ _ _ _ _ d _ => d

def OASchema.description : OASchema → String
  | .mk _ _ _ _ _ _ _ _ d => d

/-- A zero `openapi.Schema`. -/
def OASchema.empty : OASchema := .mk [] "" none [] [] none none none ""

def OASchema.withType (s : OASchema) (t : List String) : OASchema :=
  match s with | .mk _ f m p r i a d de => .mk t f m p r i a d de

def OASchema.withFormat (s : OASchema) (f : String) : OASchema :=
  match s with | .mk t _ m p r i a d de => .mk t f m p r i a d de

def OASchema.withMinimum (s : OASchema) (m : Option Int) : OASchema :=
  match s with | .mk t f _ p r i a d de => .mk t f m p r i a d de

def OASchema.withProperties (s : OASchema) (p : List (String × OARefOr)) : OASchema :=
  match s with | .mk t f m _ r i a d de => .mk t f m p r i a d de

def OASchema.withRequired (s : OASchema) (r : List String) : OASchema :=
  match s with | .mk t f m p _ i a d de => .mk t f m p r i a d de

def OASchema.withItems (s : OASchema) (i : Option OARefOr) : OASchema :=
  match s with | .mk t f m p r _ a d de => .mk t f m p r i a d de

def OASchema.withAdditionalProperties (s : OASchema) (a : Option OARefOr) : OASchema :=
  match s with | .mk t f m p r i _ d de => .mk t f m p r i a d de

def OASchema.withDefault (s : OASchema) (d : Option String) : OASchema :=
  match s with | .mk t f m p r i a _ de => .mk t f m p r i a d de

def OASchema.withDescription (s : OASchema) (de : String) : OASchema :=
  match s with | .mk t f m p r i a d _ => .mk t f m p r i a d de

/-- Go map insert (overwrite an existing key, add otherwise). -/
def propsInsert (ps : List (String × OARefOr)) (k : String) (v : OARefOr) :
    List (String × OARefOr) :=
  if (ps.lookup k).isSome then
    ps.map (fun kv => if kv.1 = k then (k, v) else kv)
  else
    ps ++ [(k, v)]

/-- `maps.Copy(dst, src)`: every entry of `src` inserted into `dst`. -/
def propsCopy (dst src : List (String × OARefOr)) : List (String × OARefOr) :=
  src.foldl (fun acc kv => propsInsert acc kv.1 kv.2) dst

/-- The `openapi` type and format string constants used by the
synthesizer. -/
def openapiBooleanType : String := "boolean"
def openapiStringType : String := "string"
def openapiIntegerType : String := "integer"
def openapiNumberType : String := "number"
def openapiObjectType : String := "object"
def openapiArrayType : String := "array"
def openapiNullType : String := "null"
def openapiInt32Format : String := "int32"
def openapiInt64Format : String := "int64"
def openapiFloatFormat : String := "float"

/-- `jsonschema.Schema`: the embedded `openapi.Schema` plus the referencing
metadata. -/
structure Schema where
  schema : OASchema := OASchema.empty
  refPath : String := ""
  noRef : Bool := false
  name : String := ""

/-- `jsonschema.New`. -/
def SchemaNew : Schema := {}

/-- `Schema.GetType` (a nil type list reads as empty). -/
def Schema.GetType (s : Schema) : List String := s.schema.type

/-- `Schema.hasType`. -/
def Schema.hasType (s : Schema) : Bool := s.GetType.length > 0

/-- `reflect.Kind() == reflect.Ptr`. -/
def Ty.isPtr : Ty → Bool
  | .ptr _ => true
  | _ => false

/-- `jsonschema.getTypeName`: dereference a pointer, then
`reflect.Type.Name()`. -/
def getTypeName : Ty → String
  | .ptr t => t.goName
  | t => t.goName

/-- The `Schemer` configuration (its `types` map is threaded separately as
the explicit `SCache`). -/
structure Schemer where
  DefaultStructRequire : Bool := false
  RefPath : String := "/schemas/"
  GetTypeName : Ty → String := getTypeName

/-- `jsonschema.NewSchemer` (the cache starts empty). -/
def NewSchemer : Schemer := {}

/-- The `Schemer.types` memoization cache, `map[reflect.Type]Schema`. -/
abbrev SCache := List (Ty × Schema)

def SCache.get (c : SCache) (t : Ty) : Option Schema :=
  List.lookup t c

/-- Go map assignment `s.types[typ] = schema`. -/
def SCache.set (c : SCache) (t : Ty) (s : Schema) : SCache :=
  if (SCache.get c t).isSome then
    c.map (fun kv => if kv.1 = t then (t, s) else kv)
  else
    c ++ [(t, s)]

/-- Go `delete(s.types, typ)`. -/
def SCache.del (c : SCache) (t : Ty) : SCache :=
  c.filter (fun kv => kv.1 ≠ t)

/-- Capability environment of the schema synthesizer: struct declarations,
the `schemer` (custom `JSONSchema()`), `schemerExtended`
(`JSONSchemaExtend`) and `noRefer` interfaces. -/
structure SchemaEnv where
  structs : String → Option (List GoField)
  customSchema : Ty → Option Schema
  extendSchema : Ty → Option (Schema → Schema)
  noRefType : Ty → Bool

/-- Go interface satisfaction facts the model relies on: only named struct
types can carry methods, so the capability interfaces are never satisfied by
pointer, primitive, composite or interface kinds. -/
def SchemaEnv.WF (E : SchemaEnv) : Prop :=
  ∀ t : Ty, (∀ n : String, t ≠ .struct n) →
    E.customSchema t = none ∧ E.extendSchema t = none ∧ E.noRefType t = false

/-- `Schemer.useRefs`. -/
def Schemer.useRefs (s : Schemer) : Bool := s.RefPath ≠ ""

/-- `Schemer.NewRef`. -/
def Schemer.NewRef (s : Schemer) (name : String) : String :=
  if name = "" then "" else s.RefPath ++ name

/-- `Schemer.refOrSpec`: inline the schema, unless the type is already cached
and a reference is requested. -/
def refOrSpec (S : Schemer) (c : SCache) (t : Ty) (schema : Schema)
    (useRef : Bool) : OARefOr :=
  match SCache.get c t with
  | some fieldSchema =>
    if useRef then .ref (S.NewRef fieldSchema.name) else .spec schema.schema
  | none => .spec schema.schema

/-- Go `strings.Split(s, ",")`, written out explicitly so it evaluates in
the kernel. -/
def splitCommaAux : List Char → List Char → List String
  | acc, [] => [String.mk acc.reverse]
  | acc, c :: rest =>
    if c = ',' then String.mk acc.reverse :: splitCommaAux [] rest
    else splitCommaAux (c :: acc) rest

/-- Go `strings.Split` at commas. -/
def stringsSplitComma (s : String) : List String :=
  splitCommaAux [] s.data

/-- `jsonschema.JSONFieldName`: the `json` tag (with `-` meaning skip and
comma options stripped), falling back to the Go field name. -/
def JSONFieldName (f : GoField) : String :=
  let jsonTag := f.tagGet "json"
  if jsonTag = "-" then ""
  else
    let name := (stringsSplitComma jsonTag).headD ""
    if name = "" then f.name else name

/-- `jsonschema.loadSchemaOptions`: the `default` and `doc` field tags
annotate the property schema. -/
def loadSchemaOptions (field : GoField) (schema : OASchema) : OASchema :=
  let schema := if field.tagGet "default" ≠ "" then
      schema.withDefault (some (field.tagGet "default"))
    else schema
  if field.tagGet "doc" ≠ "" then schema.withDescription (field.tagGet "doc")
  else schema

/-- `Schemer.addObjectRequired`: named fields become properties (by reference
when allowed), and `DefaultStructRequire` marks non-pointer fields
required. -/
def addObjectRequired (S : Schemer) (c : SCache) (field : GoField)
    (schema fieldSchema : Schema) : Schema :=
  let fieldName := JSONFieldName field
  if fieldName ≠ "" then
    let shouldUseRef := S.useRefs ∧ ¬ fieldSchema.noRef
    let specOrRef := refOrSpec S c field.type fieldSchema shouldUseRef
    let schema := { schema with
      schema := schema.schema.withProperties
        (propsInsert schema.schema.properties fieldName specOrRef) }
    if S.DefaultStructRequire ∧ ¬ field.type.isPtr then
      { schema with
        schema := schema.schema.withRequired (schema.schema.required ++ [fieldName]) }
    else schema
  else schema

/-- `createBoolSchema`. -/
def createBoolSchema : Schema :=
  { SchemaNew with schema := OASchema.empty.withType [openapiBooleanType] }

/-- `createStringSchema`. -/
def createStringSchema : Schema :=
  { SchemaNew with schema := OASchema.empty.withType [openapiStringType] }

/-- `createIntSchema`: integer type; the `int32`/`int64` formats only for the
explicit 32/64-bit kinds. -/
def createIntSchema (w : IntW) : Schema :=
  let base := OASchema.empty.withType [openapiIntegerType]
  let base := match w with
    | .w32 => base.withFormat openapiInt32Format
    | .w64 => base.withFormat openapiInt64Format
    | _ => base
  { SchemaNew with schema := base }

/-- `createUintSchema`: like the signed case plus `minimum: 0`. -/
def createUintSchema (w : IntW) : Schema :=
  let base := (OASchema.empty.withType [openapiIntegerType]).withMinimum (some 0)
  let base := match w with
    | .w32 => base.withFormat openapiInt32Format
    | .w64 => base.withFormat openapiInt64Format
    | _ => base
  { SchemaNew with schema := base }

/-- `createFloatSchema`: number with the `float` format; the source does not
inspect the kind, so float32 and float64 share the same format. -/
def createFloatSchema : Schema :=
  { SchemaNew with schema :=
      (OASchema.empty.withType [openapiNumberType]).withFormat openapiFloatFormat }

/-- Result of a fuelled synthesizer call: `none` when the call depth budget is
exhausted (the Go recursion did not return), otherwise the threaded cache and
the Go `(Schema, error)` pair. -/
abbrev SOut := Option (SCache × Except GoErr Schema)

/-- `Schemer.handleCustomSchemer`: adopt the type's own `JSONSchema()`,
naming and caching it. -/
def handleCustomSchemer (S : Schemer) (c : SCache) (typ : Ty)
    (schema0 : Schema) : SCache × Schema :=
  let schema := if schema0.name = "" then { schema0 with name := S.GetTypeName typ }
    else schema0
  (SCache.set c typ schema, schema)

/-- `Schemer.applyExtensions`: run the type's `JSONSchemaExtend` hook if it
has one; struct types have the extended schema re-cached. -/
def applyExtensions (E : SchemaEnv) (c : SCache) (typ : Ty)
    (schema : Schema) : SCache × Schema :=
  match E.extendSchema typ with
  | none => (c, schema)
  | some extend =>
    let schema := extend schema
    match typ with
    | .struct _ => (SCache.set c typ schema, schema)
    | _ => (c, schema)

/-- The call shapes of the synthesizer's mutual recursion
(`schemaFromType` / the field loop of `schemaFromStruct`); the kind
dispatch and per-kind constructors are inlined into the `fromType` case so
the whole synthesis is one function structurally recursive on fuel: every
call consumes one unit. -/
inductive SchemaCall where
  | fromType (typ : Ty)
  | fieldsLoop (typ : Ty) (fieldCount : Nat) (fields : List GoField) (schema : Schema)

/-- The synthesizer body.  `none` means the Go recursion did not return
within the fuel budget. -/
def schemaF (E : SchemaEnv) (S : Schemer) : Nat → SchemaCall → SCache → SOut
  | 0, _, _ => none
  -- `Schemer.schemaFromType`: a cache hit returns the cached schema, a
  -- custom `schemer` type short-circuits kind-based derivation, otherwise
  -- `createSchemaByKind` runs followed by `applyExtensions`.
  | fuel + 1, .fromType typ, c =>
    match SCache.get c typ with
    | some schema => some (c, .ok schema)
    | none =>
      match E.customSchema typ with
      | some schema0 =>
        let (c, schema) := handleCustomSchemer S c typ schema0
        some (c, .ok schema)
      | none =>
        -- `Schemer.createSchemaByKind`
        let byKind : SOut :=
          match typ with
          | .bool => some (c, .ok createBoolSchema)
          | .string => some (c, .ok createStringSchema)
          | .int w => some (c, .ok (createIntSchema w))
          | .uint w => some (c, .ok (createUintSchema w))
          | .float32 => some (c, .ok createFloatSchema)
          | .float64 => some (c, .ok createFloatSchema)
          -- `Schemer.createArraySchema`: array type; the element schema
          -- becomes `items` (by reference when the element type is cached,
          -- named and referenceable).
          | .slice elem | .array elem =>
            let schema :=
              { SchemaNew with schema := OASchema.empty.withType [openapiArrayType] }
            match schemaF E S fuel (.fromType elem) c with
            | none => none
            | some (c, .error e) => some (c, .error e)
            | some (c, .ok arrayItemSchema) =>
              if arrayItemSchema.hasType then
                let specOrRef := refOrSpec S c elem arrayItemSchema
                  (S.useRefs ∧ ¬ arrayItemSchema.noRef)
                some (c, .ok { schema with
                  schema := schema.schema.withItems (some specOrRef) })
              else
                some (c, .ok schema)
          -- `Schemer.createPointerSchema`: the pointee's schema with `null`
          -- added to its type set (`typeSchema.Type.Add(openapi.NullType)`),
          -- otherwise unchanged.
          | .ptr elem =>
            match schemaF E S fuel (.fromType elem) c with
            | none => none
            | some (c, .error e) => some (c, .error e)
            | some (c, .ok typeSchema) =>
              some (c, .ok { typeSchema with
                schema := typeSchema.schema.withType
                  (typeSchema.schema.type ++ [openapiNullType]) })
          -- `Schemer.createMapSchema`: string keys only; the value schema is
          -- always inlined into `additionalProperties`.
          | .map key value =>
            if key ≠ Ty.string then
              some (c, .error .errInvalidMapKey)
            else
              let schema :=
                { SchemaNew with schema := OASchema.empty.withType [openapiObjectType] }
              match schemaF E S fuel (.fromType value) c with
              | none => none
              | some (c, .error e) => some (c, .error e)
              | some (c, .ok mapItemSchema) =>
                if mapItemSchema.hasType then
                  some (c, .ok { schema with
                    schema := schema.schema.withAdditionalProperties
                      (some (.spec mapItemSchema.schema)) })
                else
                  some (c, .ok schema)
          -- `Schemer.createStructSchema`: derive the object schema from the
          -- fields (`schemaFromStruct`), then name it, mark `noRef` if the
          -- type implements `noRefer`, and only then register it in the
          -- cache — the registration happens after the recursion into the
          -- fields has completed.
          | .struct n =>
            let startSchema := { SchemaNew with
              schema := (OASchema.empty.withType [openapiObjectType]).withProperties [] }
            let fields := (E.structs n).getD []
            match schemaF E S fuel (.fieldsLoop typ fields.length fields startSchema) c with
            | none => none
            | some (c, .error e) => some (c, .error e)
            | some (c, .ok structSchema) =>
              let structSchema := { structSchema with name := S.GetTypeName typ }
              let structSchema := if E.noRefType typ then
                  { structSchema with noRef := true }
                else structSchema
              some (SCache.set c typ structSchema, .ok structSchema)
          | .iface => some (c, .ok SchemaNew)
          | .unsupported kindName =>
            some (c, .error (.wrap
              ("type: " ++ kindName ++ ": reflect.kind: " ++ kindName) .errUnknowType))
        match byKind with
        | none => none
        | some (c, .error e) => some (c, .error e)
        | some (c, .ok schema) =>
          let (c, schema) := applyExtensions E c typ schema
          some (c, .ok schema)
  -- the `updateSchema` loop of `schemaFromStruct`: anonymous (embedded)
  -- fields merge their properties up (or are adopted wholesale when they
  -- are the struct's only field) and are dropped from the cache when they
  -- were not already present; named fields go through `addObjectRequired`.
  | _fuel + 1, .fieldsLoop _ _ [] schema, c => some (c, .ok schema)
  | fuel + 1, .fieldsLoop typ fieldCount (field :: rest) schema, c =>
    let hasFieldType := (SCache.get c field.type).isSome
    match schemaF E S fuel (.fromType field.type) c with
    | none => none
    | some (c, .error e) => some (c, .error e)
    | some (c, .ok fieldSchema0) =>
      let fieldSchema := { fieldSchema0 with
        schema := loadSchemaOptions field fieldSchema0.schema }
      if field.anonymous then
        let c := if ¬ hasFieldType then SCache.del c field.type else c
        let merged := propsCopy schema.schema.properties fieldSchema.schema.properties
        let schema := if fieldCount = 1 then fieldSchema
          else { schema with schema := schema.schema.withProperties merged }
        schemaF E S fuel (.fieldsLoop typ fieldCount rest schema) c
      else
        schemaF E S fuel
          (.fieldsLoop typ fieldCount rest (addObjectRequired S c field schema fieldSchema)) c

/-- `Schemer.schemaFromType`, fuelled. -/
def schemaFromTypeF (E : SchemaEnv) (S : Schemer) (fuel : Nat) (typ : Ty)
    (c : SCache) : SOut :=
  schemaF E S fuel (.fromType typ) c

/-- `Schemer.Get`, fuelled. -/
def SchemerGetF (E : SchemaEnv) (S : Schemer) (fuel : Nat) (typ : Ty)
    (c : SCache) : SOut :=
  schemaFromTypeF E S fuel typ c

/-! ### `openapi3/param/param.go`: OpenAPI parameter synthesis -/

/-- The `openapi.Parameter` fields the layer populates. -/
structure OAParameter where
  Name : String := ""
  In : String := ""
  Required : Bool := false
  Explode : Bool := false
  Deprecated : Bool := false
  AllowReserved : Bool := false
  Style : String := ""
  Schema : Option OASchema := none

/-- `param.New` (openapi3). -/
def OAParameterNew : OAParameter := {}

/-- `Parameter.SetSchema`. -/
def setOAParamSchema (p : OAParameter) (schema : Schema) : OAParameter :=
  { p with Schema := some schema.schema }

/-- `StyleFromString`: the closed set of OpenAPI style values. -/
def StyleFromString (str : String) : String × Option GoErr :=
  if str = "matrix" ∨ str = "label" ∨ str = "form" ∨ str = "simple" ∨
      str = "spaceDelimited" ∨ str = "pipeDelimited" ∨ str = "deepObject" then
    (str, none)
  else
    ("", some (.wrap str .errInvalidStyle))

/-- `defaultStyle`: per-location default styles. -/
def defaultStyle (loc : String) : String × Option GoErr :=
  if loc = "header" ∨ loc = "path" then ("simple", none)
  else if loc = "query" ∨ loc = "cookie" then ("form", none)
  else ("", some .errInvalidLocation)

/-- The `tags` bundle read by the layer. -/
structure OATags where
  explode : String := ""
  deprecated : String := ""
  style : String := ""
  required : String := ""
  reserved : String := ""
  minimum : String := ""

/-- `getTags` over a struct field's tag set. -/
def getTagsOf (f : GoField) : OATags :=
  { minimum := f.tagGet "minimum"
    explode := f.tagGet "explode"
    deprecated := f.tagGet "deprecated"
    style := f.tagGet "style"
    required := f.tagGet "required"
    reserved := f.tagGet "reserved" }

/-- The generic `parse` helper specialized to `strconv.ParseBool`: an empty
tag leaves the value untouched and errors leave it untouched. -/
def parseTagBool (input : String) (value : Bool) : Bool × Option GoErr :=
  if input = "" then (value, none)
  else
    match Strconv.parseBool input with
    | (b, none) => (b, none)
    | (_, some e) => (value, some e)

/-- `parseStyle`: an empty tag writes the zero style, a valid tag the parsed
style; an invalid tag errors without writing. -/
def parseStyleTag (input : String) (value : String) : String × Option GoErr :=
  if input = "" then ("", none)
  else
    match StyleFromString input with
    | (s, none) => (s, none)
    | (_, some e) => (value, some e)

/-- `fmt.Errorf("failed to parse tag %q: %w", tag, err)` applied to a
possibly-nil error. -/
def tagWrap (tag : String) (e : Option GoErr) : Option GoErr :=
  e.map (fun e => .wrap ("failed to parse tag " ++ tag) e)

/-- The first non-nil error, Go's `cmp.Or` over eagerly evaluated
arguments. -/
def firstErr (es : List (Option GoErr)) : Option GoErr :=
  match es with
  | [] => none
  | none :: rest => firstErr rest
  | some e :: _ => some e

/-- `updateFromTags`: all six tag parses run (their writes through the
parameter's fields all land), and the first failure in declaration order is
returned.  The `minimum` tag first plants `0` into the schema's minimum and
the parsed value then overwrites it; its integer parse is `ParseInt(s, 0, 0)`
(modelled base-10). -/
def updateFromTags (t : OATags) (p : OAParameter) : OAParameter × Option GoErr :=
  let p := if t.minimum ≠ "" then
      { p with Schema := p.Schema.map (fun s => s.withMinimum (some 0)) }
    else p
  let (explode, e1) := parseTagBool t.explode p.Explode
  let (deprecated, e2) := parseTagBool t.deprecated p.Deprecated
  let (required, e3) := parseTagBool t.required p.Required
  let (reserved, e4) := parseTagBool t.reserved p.AllowReserved
  let (style, e5) := parseStyleTag t.style p.Style
  let (p, e6) :=
    if t.minimum = "" then (p, none)
    else
      match Strconv.parseInt t.minimum 0 with
      | (_, some e) => (p, some e)
      | (n, none) => ({ p with Schema := p.Schema.map (fun s => s.withMinimum (some n)) }, none)
  let p := { p with Explode := explode, Deprecated := deprecated,
                    Required := required, AllowReserved := reserved, Style := style }
  (p, firstErr [tagWrap "explode" e1, tagWrap "deprecated" e2, tagWrap "required" e3,
                tagWrap "reserved" e4, tagWrap "style" e5, tagWrap "minimum" e6])

/-- `setDefaults`: fill the location's default style, default `explode=true`
for form style without an explicit tag, and force `Required` for
path-location parameters. -/
def setDefaults (p : OAParameter) (t : OATags) : OAParameter × Option GoErr :=
  let styled : OAParameter × Option GoErr :=
    if p.Style = "" then
      match defaultStyle p.In with
      | (_, some e) => (p, some e)
      | (ds, none) => ({ p with Style := ds }, none)
    else (p, none)
  match styled with
  | (p, some e) => (p, some e)
  | (p, none) =>
    let p := if p.Style = "form" ∧ t.explode = "" then { p with Explode := true } else p
    let p := if p.In = "path" then { p with Required := true } else p
    (p, none)

/-- `getSchemasDataType`: the first type in the schema's type set that the
fixed table classifies. -/
def getSchemasDataType (schema : Schema) : String × Bool :=
  let classify : String → Option String := fun t =>
    if t = openapiIntegerType ∨ t = openapiNumberType ∨ t = openapiStringType ∨
        t = openapiBooleanType ∨ t = openapiNullType then some "primitive"
    else if t = openapiObjectType then some "object"
    else if t = openapiArrayType then some "array"
    else none
  match schema.GetType.findSome? classify with
  | some dt => (dt, true)
  | none => ("", false)

/-- The `styleValidation` allow-list: for each style, the locations and data
types it may carry. -/
def styleValidationRules (style : String) : Option (List String × List String) :=
  if style = "deepObject" then some (["query"], ["object"])
  else if style = "spaceDelimited" then some (["query"], ["array", "object"])
  else if style = "pipeDelimited" then some (["query"], ["array", "object"])
  else if style = "simple" then some (["path", "header"], ["array", "object", "primitive"])
  else if style = "form" then some (["query", "cookie"], ["array", "object", "primitive"])
  else if style = "label" then some (["path"], ["array", "object", "primitive"])
  else if style = "matrix" then some (["path"], ["array", "object", "primitive"])
  else none

/-- `paramValidation.Validate`: location first, then data type. -/
def paramValidationValidate (rule : List String × List String) (loc : String)
    (typ : String) : Option GoErr :=
  if ¬ rule.1.contains loc then some .errInvalidLocForStyle
  else if ¬ rule.2.contains typ then some .errInvalidTypeForLocation
  else none

/-- `fromInfoError`: the style-diagnostic wrapper around registration
errors; the message composition is diagnostic-only and modelled coarsely. -/
def fromInfoError (i : Info) (_p : OAParameter) (_dataType : String)
    (err : GoErr) : GoErr :=
  .handlerErr (.invalidParamStyle i.Struct i.Field "" "" err)

/-- `param.FromInfo` (openapi3), fuelled through the schema synthesizer:
build the parameter, apply tags, defaults, and the style allow-list. -/
def FromInfoF (E : SchemaEnv) (S : Schemer) (fuel : Nat) (info : Info)
    (c : SCache) : Option (SCache × OAParameter × Option GoErr) :=
  let p := { OAParameterNew with Name := info.Name, In := info.Source }
  match SchemerGetF E S fuel info.Type' c with
  | none => none
  | some (c, .error e) => some (c, p, some (.wrap "failed getting schema" e))
  | some (c, .ok schema) =>
    let infoHasDefault := info.Default ≠ ""
    let schemaHasDefault := schema.schema.default.isSome
    let schema := if infoHasDefault ∧ ¬ schemaHasDefault then
        { schema with schema := schema.schema.withDefault (some info.Default) }
      else schema
    let (dataType, _) := getSchemasDataType schema
    let tags := getTagsOf info.Field
    let p := setOAParamSchema p schema
    let ur := updateFromTags tags p
    match ur.2 with
    | some e => some (c, ur.1, some (fromInfoError info ur.1 dataType e))
    | none =>
      let sr := setDefaults ur.1 tags
      match sr.2 with
      | some e => some (c, sr.1, some e)
      | none =>
        match styleValidationRules sr.1.Style with
        | none => some (c, sr.1, some (fromInfoError info sr.1 dataType .errInvalidStyle))
        | some rule =>
          match paramValidationValidate rule sr.1.In dataType with
          | some e => some (c, sr.1, some (fromInfoError info sr.1 dataType e))
          | none => some (c, sr.1, none)

/-! ### The request-time extractor (`extractor` package) -/

/-- `extractor.ErrParamFailedToExtract` wrapping:
`fmt.Errorf("%w: %w", ErrParamFailedToExtract, err)`. -/
def wrapFailedToExtract (e : Option GoErr) : Option GoErr :=
  e.map (fun e => .wrapBoth .errParamFailedToExtract e)

/-- `extractor.Query[T].Extract`: look the resolved name up in the request's
(cached) query values and hand the raw slice to `Opts.Parse`; failures are
wrapped with `ErrParamFailedToExtract`.  The extractor's value state is the
inner `T` value the parse writes. -/
def QueryExtract (r : Request) (value : GoVal) (opts : Opts) : ParseOut :=
  let values := r.queryGet opts.Name
  match opts.Parse value values with
  | .panicked => .panicked
  | .ok v e => .ok v (wrapFailedToExtract e)

/-- `extractor.Path[T].Extract`. -/
def PathExtract (r : Request) (value : GoVal) (opts : Opts) : ParseOut :=
  let raw := opts.Pather opts.Name r
  match opts.Parser value [raw] with
  | .panicked => .panicked
  | .ok v e => .ok v (wrapFailedToExtract e)

/-- The `ParamExtractor` capability of a type: its `Source()` and its
`Extract` method (operating on the extractor's inner value state). -/
structure ParamExtImpl where
  source : String
  extract : Request → GoVal → Opts → ParseOut

/-- Capability environment for extractor compilation. -/
structure ExtractEnv where
  paramExt : Ty → Option ParamExtImpl

/-- `extractor.extractorForOpts`. -/
structure ExtractorForOpts where
  Namer : NamerFn
  Parser : ParserFn
  Pather : String → Request → String := fun _ _ => ""
  CollectAllErrors : Bool := false

/-- `extractor.extractParamExtractor`: for a field whose type implements
`ParamExtractor`, resolve the name once at compile time and build the
per-request step.  The `param.Opts` handed to `Extract` carries an empty
`Default`. -/
def extractParamExtractor (E : ExtractEnv) (field : GoField)
    (opts : ExtractorForOpts) : Option (Request → GoVal → ParseOut) :=
  match E.paramExt field.type with
  | none => none
  | some impl =>
    let source := impl.source
    let name := NameFromField field opts.Namer source
    some (fun r v => impl.extract r v
      { Name := name, Default := "", Parser := opts.Parser, Pather := opts.Pather })

/-! ### `jsonschema/validate.go`: the schema validator

The compiled validation engine (`santhosh-tekuri/jsonschema`) is the spec's
external collaborator ("an external validation engine is assumed available
and is treated as a collaborator").  Its document type, JSON unmarshalling
and evaluation are abstract parameters; the resolution contract that `Add`
compiles against — references resolve locally against the added resources,
anything else goes through the configured loader — is modelled from the
spec. -/

/-- Modelled from the spec: a parsed schema document of the external
validation engine, reduced to the references it mentions (the part `Add`'s
compilation step resolves). -/
structure VDoc where
  refs : List String := []
deriving DecidableEq, Repr

/-- The engine's compiler state: the added resources and the URL loader. -/
structure VCompiler where
  resources : List (String × VDoc) := []
  loader : String → Except GoErr VDoc

/-- `noopLoader.Load`: every load attempt fails with `ErrSchemaLoad` —
remote schemas are not supported. -/
def noopLoaderLoad (_url : String) : Except GoErr VDoc :=
  .error .errSchemaLoad

/-- `compiler.AddResource`. -/
def compilerAddResource (c : VCompiler) (name : String) (doc : VDoc) : VCompiler :=
  { c with resources := (name, doc) :: c.resources }

/-- Modelled from the spec: compilation resolves each reference of the named
document against the locally added resources, and consults the loader for
any other reference. -/
def resolveRefs (c : VCompiler) : List String → Option GoErr
  | [] => none
  | r :: rest =>
    if (c.resources.lookup r).isSome then resolveRefs c rest
    else
      match c.loader r with
      | .error e => some (.wrap ("loading " ++ r) e)
      | .ok _ => resolveRefs c rest

/-- `compiler.Compile` under the resolution contract above. -/
def compilerCompile (c : VCompiler) (name : String) : Except GoErr VDoc :=
  match c.resources.lookup name with
  | none => .error (.wrap ("compile(" ++ name ++ ")") (.msg "resource not found"))
  | some doc =>
    match resolveRefs c doc.refs with
    | some e => .error (.wrap ("compile(" ++ name ++ ")") e)
    | none => .ok doc

/-- `jsonschema.Validator`. -/
structure Validator where
  compiler : VCompiler
  schemas : List (String × VDoc) := []

/-- `jsonschema.NewValidator`: installs the `noopLoader`. -/
def NewValidator : Validator :=
  { compiler := { loader := noopLoaderLoad } }

/-- `Validator.Add`, parameterized over the engine's
`jsonschema.UnmarshalJSON` (malformed JSON is its error case): unmarshal,
add the resource, compile, and register the compiled schema. -/
def ValidatorAdd (unmarshal : String → Except GoErr VDoc) (v : Validator)
    (name schema : String) : Validator × Option GoErr :=
  match unmarshal schema with
  | .error e => (v, some (.wrap ("jsonschema.UnmarshalJSON(" ++ name ++ ")") e))
  | .ok s =>
    let v := { v with compiler := compilerAddResource v.compiler name s }
    match compilerCompile v.compiler name with
    | .error e => (v, some e)
    | .ok compiled => ({ v with schemas := (name, compiled) :: v.schemas }, none)

/-- `Validator.Validate`, parameterized over `json.Unmarshal` of the input
and the compiled schema's evaluation: an unregistered name fails with
`ErrSchemaNotFound` before either runs. -/
def ValidatorValidate (decode : String → Option GoErr)
    (evalCompiled : VDoc → String → Option GoErr)
    (v : Validator) (name : String) (input : String) : Option GoErr :=
  match v.schemas.lookup name with
  | none => some .errSchemaNotFound
  | some s =>
    match decode input with
    | some e => some e
    | none => evalCompiled s input

/-! ### Theorems -/

/-- A sequential run of a parser chain in which every parser returned a
result matching the `ErrInvalidParamType` sentinel, threading the value each
parser wrote to the shared target; the final state and the last parser's
returned error are recorded. -/
inductive SentinelRun : List ParserFn → GoVal → List String → GoVal → Option GoErr → Prop where
  | single (p : ParserFn) (v : GoVal) (params : List String) (v' : GoVal) (e : Option GoErr) :
      p v params = .ok v' e → errIs e .sentinelInvalidParamType = true →
      SentinelRun [p] v params v' e
  | cons (p : ParserFn) (ps : List ParserFn) (v : GoVal) (params : List String)
      (v' v'' : GoVal) (e e' : Option GoErr) :
      p v params = .ok v' e → errIs e .sentinelInvalidParamType = true →
      SentinelRun ps v' params v'' e' →
      SentinelRun (p :: ps) v params v'' e'

lemma parsersLoop_of_sentinelRun {ps : List ParserFn} {v : GoVal}
    {params : List String} {v' : GoVal} {e : Option GoErr}
    (h : SentinelRun ps v params v' e) :
    ∀ acc, parsersLoop ps v params acc = .ok v' e := by
  induction h with
  | single p v params v' e hp hs =>
    intro acc
    simp [parsersLoop, hp, hs]
  | cons p ps v params v' v'' e e' hp hs _ ih =>
    intro acc
    simp [parsersLoop, hp, hs, ih]

lemma parsersLoop_first_non_sentinel {pre : List ParserFn} {p : ParserFn}
    {rest : List ParserFn} {v : GoVal} {params : List String}
    {v₁ v₂ : GoVal} {pe e : Option GoErr}
    (hrun : SentinelRun pre v params v₁ pe)
    (hp : p v₁ params = .ok v₂ e)
    (hns : errIs e .sentinelInvalidParamType = false) :
    ∀ acc, parsersLoop (pre ++ p :: rest) v params acc = .ok v₂ e := by
  induction hrun with
  | single q u uparams u' ue hq hs =>
    intro acc
    simp [parsersLoop, hq, hs, hp, hns]
  | cons q qs u uparams u' u'' ue ue' hq hs _ ih =>
    intro acc
    simp [parsersLoop, hq, hs]
    exact ih hp ue

/-- C3.  Parser chain fallback law for `Parsers.Parse`: (i) when the head
parser's result does not match the "invalid type" sentinel, that result —
written value and error, success or failure — is the chain's result and no
later parser runs; (ii) when an initial segment of parsers all return the
sentinel and the next parser returns a non-sentinel result, that result is
the chain's result; (iii) when every parser of a (nonempty) chain returns
the sentinel, the chain returns the last parser's (sentinel-matching) error.
The parsers are arbitrary, so a chain's `Parse` itself (of type `ParserFn`)
may appear as an element of another chain. -/
theorem parsers_parse_chain_fallback :
    (∀ (p : ParserFn) (rest : List ParserFn) (v : GoVal) (params : List String)
        (v' : GoVal) (e : Option GoErr),
      p v params = .ok v' e → errIs e .sentinelInvalidParamType = false →
      ParsersParse (p :: rest) v params = .ok v' e)
    ∧ (∀ (pre : List ParserFn) (p : ParserFn) (rest : List ParserFn) (v : GoVal)
        (params : List String) (v₁ v₂ : GoVal) (pe e : Option GoErr),
      SentinelRun pre v params v₁ pe →
      p v₁ params = .ok v₂ e → errIs e .sentinelInvalidParamType = false →
      ParsersParse (pre ++ p :: rest) v params = .ok v₂ e)
    ∧ (∀ (ps : List ParserFn) (v : GoVal) (params : List String) (v' : GoVal)
        (e : Option GoErr),
      SentinelRun ps v params v' e →
      ParsersParse ps v params = .ok v' e ∧ errIs e .sentinelInvalidParamType = true) := by
  refine ⟨?_, ?_, ?_⟩
  · intro p rest v params v' e hp hns
    simp [ParsersParse, parsersLoop, hp, hns]
  · intro pre p rest v params v₁ v₂ pe e hrun hp hns
    exact parsersLoop_first_non_sentinel hrun hp hns none
  · intro ps v params v' e h
    refine ⟨parsersLoop_of_sentinelRun h none, ?_⟩
    induction h with
    | single p v params v' e hp hs => exact hs
    | cons p ps v params v' v'' e e' hp hs hrest ih => exact ih

/-- Witness for C3 at concrete chains: `ParseInt` sentinels on a string
target, then `ParseString` succeeds; a fully-sentinel chain returns the
sentinel; and a chain appears nested as an element of an outer chain. -/
theorem parsers_parse_chain_fallback_witness :
    ParsersParse [ParseInt, ParseString, ParseBool] (.vString "") ["x"]
        = .ok (.vString "x") none
    ∧ ParsersParse [ParseInt, ParseBool] (.vString "") ["x"]
        = .ok (.vString "") (some .sentinelInvalidParamType)
    ∧ ParsersParse [fun v pr => ParsersParse [ParseInt, ParseBool] v pr, ParseString]
        (.vString "") ["x"] = .ok (.vString "x") none := by
  refine ⟨?_, ?_, ?_⟩
  · exact parsers_parse_chain_fallback.2.1 [ParseInt] ParseString [ParseBool]
      (.vString "") ["x"] (.vString "") (.vString "x")
      (some .sentinelInvalidParamType) none
      (SentinelRun.single ParseInt (.vString "") ["x"] (.vString "")
        (some .sentinelInvalidParamType) (by decide) (by decide)) (by decide) (by decide)
  · exact (parsers_parse_chain_fallback.2.2 [ParseInt, ParseBool] (.vString "") ["x"]
      (.vString "") (some .sentinelInvalidParamType)
      (SentinelRun.cons ParseInt [ParseBool] (.vString "") ["x"] (.vString "")
        (.vString "") (some .sentinelInvalidParamType) (some .sentinelInvalidParamType)
        (by decide) (by decide)
        (SentinelRun.single ParseBool (.vString "") ["x"] (.vString "")
          (some .sentinelInvalidParamType) (by decide) (by decide)))).1
  · exact parsers_parse_chain_fallback.2.1
      [fun v pr => ParsersParse [ParseInt, ParseBool] v pr] ParseString []
      (.vString "") ["x"] (.vString "") (.vString "x")
      (some .sentinelInvalidParamType) none
      (SentinelRun.single (fun v pr => ParsersParse [ParseInt, ParseBool] v pr)
        (.vString "") ["x"] (.vString "") (some .sentinelInvalidParamType)
        (by decide) (by decide)) (by decide) (by decide)

/-- C10 counterexample.  The claim says every built-in parser unconditionally
reads `params[0]`, so an empty raw-values slice causes an out-of-bounds
panic.  `ParseBool` on a non-`*bool` target reads `params[0]` only inside the
type-assertion branch: on the empty slice it returns the sentinel without
panicking. -/
theorem builtin_parsers_read_first_counterexample :
    ParseBool (.vInt .w 0) [] = .ok (.vInt .w 0) (some .sentinelInvalidParamType)
    ∧ ParseBool (.vInt .w 0) [] ≠ .panicked
    ∧ ParseString (.vInt .w 0) [] ≠ .panicked
    ∧ ParseTextUnmarshaller (.vInt .w 0) [] ≠ .panicked := by
  refine ⟨rfl, by decide, by decide, by decide⟩

/-- C10 amended.  `ParseInt`, `ParseUint` and `ParseFloat` read `params[0]`
before their type switch, so they panic on an empty slice for every target;
`ParseBool`, `ParseString` and `ParseTextUnmarshaller` read it only when the
target matches their type assertion, panicking exactly then (and returning
the sentinel untouched otherwise).  The public `Opts.Parse` upholds the
non-empty precondition: with an empty raw-values slice and no configured
default it returns a nil error, leaves the target unchanged, and never
invokes the parser — a missing parameter is silently skipped. -/
theorem builtin_parsers_empty_params :
    (∀ v : GoVal, ParseInt v [] = .panicked ∧ ParseUint v [] = .panicked ∧
      ParseFloat v [] = .panicked)
    ∧ (∀ b : Bool, ParseBool (.vBool b) [] = .panicked)
    ∧ (∀ v : GoVal, (∀ b : Bool, v ≠ .vBool b) →
        ParseBool v [] = .ok v (some .sentinelInvalidParamType))
    ∧ (∀ s : String, ParseString (.vString s) [] = .panicked)
    ∧ (∀ v : GoVal, (∀ s : String, v ≠ .vString s) →
        ParseString v [] = .ok v (some .sentinelInvalidParamType))
    ∧ (∀ s : String, ParseTextUnmarshaller (.vTextU s) [] = .panicked)
    ∧ (∀ v : GoVal, (∀ s : String, v ≠ .vTextU s) →
        ParseTextUnmarshaller v [] = .ok v (some .sentinelInvalidParamType))
    ∧ (∀ (o : Opts) (v : GoVal), o.Default = "" → Opts.Parse o v [] = .ok v none) := by
  refine ⟨?_, ?_, ?_, ?_, ?_, ?_, ?_, ?_⟩
  · intro v
    refine ⟨?_, ?_, ?_⟩ <;> cases v <;> rfl
  · intro b; rfl
  · intro v h
    cases v with
    | vBool b => exact absurd rfl (h b)
    | _ => rfl
  · intro s; rfl
  · intro v h
    cases v with
    | vString s => exact absurd rfl (h s)
    | _ => rfl
  · intro s; rfl
  · intro v h
    cases v with
    | vTextU s => exact absurd rfl (h s)
    | _ => rfl
  · intro o v h
    simp [Opts.Parse, h]

/-- Witness for the C10 amended theorem at concrete inputs. -/
theorem builtin_parsers_empty_params_witness :
    ParseInt (.vInt .w 7) [] = .panicked
    ∧ ParseBool (.vBool true) [] = .panicked
    ∧ ParseBool (.vUint .w8 3) [] = .ok (.vUint .w8 3) (some .sentinelInvalidParamType)
    ∧ Opts.Parse { Parser := ParseInt } (.vInt .w 7) [] = .ok (.vInt .w 7) none := by
  refine ⟨(builtin_parsers_empty_params.1 (.vInt .w 7)).1,
    builtin_parsers_empty_params.2.1 true,
    builtin_parsers_empty_params.2.2.1 (.vUint .w8 3) (fun b h => by cases h),
    builtin_parsers_empty_params.2.2.2.2.2.2.2 { Parser := ParseInt } (.vInt .w 7) rfl⟩

/-- The `routey.Query[int]` wrapper type of end-to-end scenario C. -/
def queryIntTy : Ty := .struct "QueryInt"

/-- Extractor capability environment of scenario C: `routey.Query[int]`
implements `ParamExtractor` with source `query` and `Query.Extract`. -/
def c2ExtractEnv : ExtractEnv where
  paramExt := fun t =>
    if t = queryIntTy then some { source := "query", extract := QueryExtract }
    else none

/-- The handler input field `Field routey.Query[int]` tagged
`default:"1"`. -/
def c2Field : GoField := { name := "Field", type := queryIntTy, tags := [("default", "1")] }

/-- The router's compile-time options: the default namer and the integer
parser. -/
def c2Opts : ExtractorForOpts := { Namer := NamerCapitals, Parser := ParseInt }

/-- `GET /` — a request with no query string. -/
def c2Request : Request := {}

/-- C2 (code bug).  For the scenario-C input — a handler struct
`{Field routey.Query[int] default:"1"}` and a request with no query string —
the compiled per-route step produced by `extractParamExtractor` hands
`Query.Extract` a `param.Opts` whose `Default` is hard-coded `""` (the
field's `default` tag is never read), so `Opts.Parse` takes its
missing-parameter branch and the extracted value stays `0` with no error:
the code extracts `0` where the claim (and spec scenario C) requires `1`. -/
theorem extract_default_tag_ignored :
    (extractParamExtractor c2ExtractEnv c2Field c2Opts).map
        (fun step => step c2Request (.vInt .w 0)) = some (.ok (.vInt .w 0) none)
    ∧ (extractParamExtractor c2ExtractEnv c2Field c2Opts).map
        (fun step => step c2Request (.vInt .w 0)) ≠ some (.ok (.vInt .w 1) none)
    ∧ c2Field.tagGet "default" = "1" := by
  refine ⟨rfl, by decide, rfl⟩

/-- Walker environment for the default-validation scenario: a struct
`Params { Value routey.Query[int] default:"1." }`; `routey.Query[int]`
implements `sourcer` (query) and `inner` (int). -/
def c6Env : WalkEnv where
  structs := fun n =>
    if n = "Params" then
      some [{ name := "Value", type := queryIntTy, tags := [("default", "1.")] }]
    else if n = "QueryInt" then some [{ name := "Value", type := .int .w }]
    else none
  source := fun t => if t = queryIntTy then some "query" else none
  inner := fun t => if t = queryIntTy then some (.int .w) else none
  zeroVal := fun t => match t with
    | .int w => .vInt w 0
    | _ => .vOther t.goName
  customParse := fun _ => none

/-- The `Value` field of the scenario struct. -/
def c6Field : GoField := { name := "Value", type := queryIntTy, tags := [("default", "1.")] }

/-- C6.  An integer-typed parameter field tagged `default:"1."` fails during
`InfoFromStruct` — registration time — with an `InvalidParamError` whose
`Message` is exactly `"default value cannot be parsed: 1."`; the same walker
reports a parameter whose type itself is unparsable with an empty `Message`,
which renders under the distinct generic title
`"cannot determine how to parse param"`. -/
theorem default_value_eager_validation :
    InfoFromStructF c6Env 10 (.struct "Params") NamerCapitals (some ParseInt)
      = some (.error (.invalidParam (.struct "Params") c6Field (some (.int .w))
          "default value cannot be parsed: 1."
          "strconv.ParseInt: parsing \x221.\x22: invalid syntax" false))
    ∧ invalidParamErrTitle "default value cannot be parsed: 1."
        = "default value cannot be parsed: 1."
    ∧ InfoFromStructF c6Env 10 (.struct "Params") NamerCapitals (some ParseString)
        = some (.error (.invalidParam (.struct "Params") c6Field (some (.int .w))
            "" "" false))
    ∧ invalidParamErrTitle "" = "cannot determine how to parse param"
    ∧ ("default value cannot be parsed: 1." : String)
        ≠ "cannot determine how to parse param" := by
  refine ⟨rfl, rfl, rfl, rfl, by decide⟩

/-- The nested-struct fields of the C4 scenario:
`A { BField B }`, `B { CField C }`, `C { Value routey.Query[int] }`. -/
def c4FieldB : GoField := { name := "BField", type := .struct "B" }

def c4FieldC : GoField := { name := "CField", type := .struct "C" }

/-- Walker environment of the C4 nesting scenario. -/
def c4Env : WalkEnv where
  structs := fun n =>
    if n = "A" then some [c4FieldB]
    else if n = "B" then some [c4FieldC]
    else if n = "C" then some [{ name := "Value", type := queryIntTy }]
    else if n = "QueryInt" then some [{ name := "Value", type := .int .w }]
    else none
  source := fun t => if t = queryIntTy then some "query" else none
  inner := fun t => if t = queryIntTy then some (.int .w) else none
  zeroVal := fun t => match t with
    | .int w => .vInt w 0
    | _ => .vOther t.goName
  customParse := fun _ => none

/-- The single parameter the C4 walk discovers. -/
def c4Info : Info :=
  { Name := "value"
    Source := "query"
    Type' := .int .w
    Field := { name := "Value", type := queryIntTy }
    Struct := .struct "C"
    ParentFields := [c4FieldC, c4FieldB] }


/-- C4 counterexample.  Walking `A { BField B }` with `B { CField C }` and
`C { Value Query[int] }` yields a parameter whose `ParentFields` is
`[CField, BField]` — innermost enclosing field first — while the claim
requires the outermost-first order `[BField, CField]`. -/
theorem parent_fields_order_counterexample :
    InfoFromStructF c4Env 40 (.struct "A") NamerCapitals (some ParseInt)
      = some (.ok [c4Info])
    ∧ c4Info.ParentFields = [c4FieldC, c4FieldB]
    ∧ [c4FieldC, c4FieldB] ≠ [c4FieldB, c4FieldC] := by
  refine ⟨by decide, rfl, by decide⟩

/-- C4 amended.  `ParentFields` lists the enclosing field descriptors
innermost first: a leaf parameter discovered directly on the walked struct
has an empty `ParentFields`, and `getParamsFromStruct` *appends* the current
containing field to each child's `ParentFields` at every nesting level, so
each level adds exactly one trailing entry and deeper enclosing fields come
later in the list. -/
theorem parent_fields_append_per_level :
    (∀ (E : WalkEnv) (fuel : Nat) (structType : Ty) (field : GoField)
        (namer : NamerFn) (parser : Option ParserFn) (out : List Info)
        (src : String × Ty),
      GetSourceAndType E field.type = some src →
      infoFromFieldF E fuel structType field namer parser = some (.ok out) →
      ∀ i ∈ out, i.ParentFields = [])
    ∧ (∀ (E : WalkEnv) (fuel : Nat) (field : GoField) (namer : NamerFn)
        (parser : Option ParserFn) (out : List Info) (n : String),
      field.type = .struct n →
      getParamsFromStructF E (fuel + 1) field namer parser = some (.ok out) →
      ∃ inner : List Info,
        infoFromValueF E fuel field.type namer parser = some (.ok inner) ∧
        out = inner.map (fun i => { i with ParentFields := i.ParentFields ++ [field] })) := by
  constructor
  · intro E fuel structType field namer parser out src hsrc h
    match fuel with
    | 0 => simp [infoFromFieldF, walkF] at h
    | fuel + 1 =>
      obtain ⟨source, typ⟩ := src
      simp only [infoFromFieldF, walkF, hsrc] at h
      cases hcp : canParseType E parser (E.zeroVal typ) field with
      | panicked => rw [hcp] at h; simp at h
      | error e => rw [hcp] at h; rcases e <;> simp at h
      | ok value' =>
        rw [hcp] at h
        by_cases hd : field.tagGet "default" = ""
        · simp only [hd, ne_eq, not_true_eq_false, if_false, Option.some.injEq,
            WalkOut.ok.injEq] at h
          intro i hi
          rw [← h] at hi
          simp at hi
          rw [hi]
        · simp only [ne_eq, hd, not_false_eq_true, if_true] at h
          split at h
          · simp at h
          · split at h
            · simp at h
            · simp at h
            · simp only [Option.some.injEq, WalkOut.ok.injEq] at h
              intro i hi
              rw [← h] at hi
              simp at hi
              rw [hi]
  · intro E fuel field namer parser out n hty h
    simp only [getParamsFromStructF, walkF] at h
    cases parser with
    | none => simp at h
    | some p =>
      simp only [Option.isNone_some, Bool.false_eq_true, if_false, hty] at h
      cases hv : walkF E namer (some p) fuel (.value (.struct n)) with
      | none => rw [hv] at h; simp at h
      | some o =>
        rw [hv] at h
        cases o with
        | panicked => simp at h
        | error e => simp at h
        | ok inner =>
          refine ⟨inner, ?_, ?_⟩
          · rw [infoFromValueF, hty]
            exact hv
          · simp only [Option.some.injEq, WalkOut.ok.injEq] at h
            exact h.symm

/-- The parameter as seen one level down, before `BField` is appended. -/
def c4InfoInner : Info := { c4Info with ParentFields := [c4FieldC] }

/-- Witness for the C4 amended theorem: walking the field `BField B` appends
`BField` after the `CField` entry collected one level deeper. -/
theorem parent_fields_append_per_level_witness :
    ∃ inner : List Info,
      infoFromValueF c4Env 29 c4FieldB.type NamerCapitals (some ParseInt)
        = some (.ok inner) ∧
      [c4Info] = inner.map (fun i => { i with ParentFields := i.ParentFields ++ [c4FieldB] }) :=
  parent_fields_append_per_level.2 c4Env 29 c4FieldB NamerCapitals (some ParseInt)
    [c4Info] "B" rfl (by decide)
/-- Schema environment with no capability implementations (plain Go types). -/
def c5Env : SchemaEnv where
  structs := fun _ => none
  customSchema := fun _ => none
  extendSchema := fun _ => none
  noRefType := fun _ => false

/-- C5 counterexample.  The claim says float32 and float64 map to `number`
with a format reflecting the precision, float64's format differing from
float32's.  `createFloatSchema` ignores the kind: both synthesize to the very
same schema with format `"float"`. -/
theorem primitive_float_format_counterexample :
    SchemerGetF c5Env NewSchemer 1 .float32 [] = some ([], .ok createFloatSchema)
    ∧ SchemerGetF c5Env NewSchemer 1 .float64 [] = some ([], .ok createFloatSchema)
    ∧ createFloatSchema.schema.format = "float" := by
  refine ⟨rfl, rfl, rfl⟩

/-- C5 amended.  The primitive mapping with the float clause corrected:
bool → boolean; string → string; signed integer kinds → integer with format
`int32`/`int64` only for the explicit 32/64-bit kinds; unsigned kinds the
same plus `minimum 0`; and float32 and float64 → number with the *same*
format `"float"` for both precisions. -/
theorem primitive_schema_mapping (E : SchemaEnv) (hWF : E.WF) (S : Schemer) (fuel : Nat) :
    (∀ c : SCache, SCache.get c .bool = none →
       SchemerGetF E S (fuel + 1) .bool c = some (c, .ok createBoolSchema))
    ∧ (∀ c : SCache, SCache.get c .string = none →
       SchemerGetF E S (fuel + 1) .string c = some (c, .ok createStringSchema))
    ∧ (∀ (w : IntW) (c : SCache), SCache.get c (.int w) = none →
       SchemerGetF E S (fuel + 1) (.int w) c = some (c, .ok (createIntSchema w)))
    ∧ (∀ (w : IntW) (c : SCache), SCache.get c (.uint w) = none →
       SchemerGetF E S (fuel + 1) (.uint w) c = some (c, .ok (createUintSchema w)))
    ∧ (∀ c : SCache, SCache.get c .float32 = none →
       SchemerGetF E S (fuel + 1) .float32 c = some (c, .ok createFloatSchema))
    ∧ (∀ c : SCache, SCache.get c .float64 = none →
       SchemerGetF E S (fuel + 1) .float64 c = some (c, .ok createFloatSchema))
    ∧ createBoolSchema.schema.type = [openapiBooleanType]
    ∧ createStringSchema.schema.type = [openapiStringType]
    ∧ (∀ w : IntW, (createIntSchema w).schema.type = [openapiIntegerType]
        ∧ (createIntSchema w).schema.minimum = none
        ∧ (createIntSchema w).schema.format =
            (if w = IntW.w32 then openapiInt32Format
             else if w = IntW.w64 then openapiInt64Format else ""))
    ∧ (∀ w : IntW, (createUintSchema w).schema.type = [openapiIntegerType]
        ∧ (createUintSchema w).schema.minimum = some 0
        ∧ (createUintSchema w).schema.format =
            (if w = IntW.w32 then openapiInt32Format
             else if w = IntW.w64 then openapiInt64Format else ""))
    ∧ createFloatSchema.schema.type = [openapiNumberType]
    ∧ createFloatSchema.schema.format = openapiFloatFormat := by
  have hcap : ∀ t : Ty, (∀ n, t ≠ .struct n) →
      E.customSchema t = none ∧ E.extendSchema t = none :=
    fun t h => ⟨(hWF t h).1, (hWF t h).2.1⟩
  refine ⟨?_, ?_, ?_, ?_, ?_, ?_, rfl, rfl, ?_, ?_, rfl, rfl⟩
  · intro c hc
    have h := hcap .bool (fun n h => Ty.noConfusion h)
    simp [SchemerGetF, schemaFromTypeF, schemaF, hc, h.1, applyExtensions, h.2]
  · intro c hc
    have h := hcap .string (fun n h => Ty.noConfusion h)
    simp [SchemerGetF, schemaFromTypeF, schemaF, hc, h.1, applyExtensions, h.2]
  · intro w c hc
    have h := hcap (.int w) (fun n h => Ty.noConfusion h)
    simp [SchemerGetF, schemaFromTypeF, schemaF, hc, h.1, applyExtensions, h.2]
  · intro w c hc
    have h := hcap (.uint w) (fun n h => Ty.noConfusion h)
    simp [SchemerGetF, schemaFromTypeF, schemaF, hc, h.1, applyExtensions, h.2]
  · intro c hc
    have h := hcap .float32 (fun n h => Ty.noConfusion h)
    simp [SchemerGetF, schemaFromTypeF, schemaF, hc, h.1, applyExtensions, h.2]
  · intro c hc
    have h := hcap .float64 (fun n h => Ty.noConfusion h)
    simp [SchemerGetF, schemaFromTypeF, schemaF, hc, h.1, applyExtensions, h.2]
  · intro w
    cases w <;> exact ⟨rfl, rfl, rfl⟩
  · intro w
    cases w <;> exact ⟨rfl, rfl, rfl⟩

/-- Witness for the C5 amended theorem at concrete kinds. -/
theorem primitive_schema_mapping_witness :
    (SCache.get [] (.int IntW.w32) = none
      ∧ SchemerGetF c5Env NewSchemer 1 (.int IntW.w32) []
          = some ([], .ok (createIntSchema IntW.w32)))
    ∧ (SCache.get [] (.uint IntW.w8) = none
      ∧ SchemerGetF c5Env NewSchemer 1 (.uint IntW.w8) []
          = some ([], .ok (createUintSchema IntW.w8))) :=
  ⟨⟨rfl, (primitive_schema_mapping c5Env (fun _ _ => ⟨rfl, rfl, rfl⟩) NewSchemer 0).2.2.1
      IntW.w32 [] rfl⟩,
   ⟨rfl, (primitive_schema_mapping c5Env (fun _ _ => ⟨rfl, rfl, rfl⟩) NewSchemer 0).2.2.2.1
      IntW.w8 [] rfl⟩⟩
/-- The `Next *Node` field of the self-referential struct
`type Node struct { Next *Node }`. -/
def nodeNextField : GoField := { name := "Next", type := .ptr (.struct "Node") }

/-- Schema environment declaring the self-referential struct `Node`. -/
def nodeEnv : SchemaEnv where
  structs := fun n => if n = "Node" then some [nodeNextField] else none
  customSchema := fun _ => none
  extendSchema := fun _ => none
  noRefType := fun _ => false

/-- The empty object schema `schemaFromStruct` starts from. -/
def c1StartSchema : Schema :=
  { SchemaNew with schema := (OASchema.empty.withType [openapiObjectType]).withProperties [] }

lemma c1_stepA (n : Nat)
    (h : schemaF nodeEnv NewSchemer n
      (.fieldsLoop (.struct "Node") 1 [nodeNextField] c1StartSchema) [] = none) :
    schemaF nodeEnv NewSchemer (n + 1) (.fromType (.struct "Node")) [] = none := by
  have h1 : SCache.get ([] : SCache) (Ty.struct "Node") = none := rfl
  have h2 : nodeEnv.customSchema (Ty.struct "Node") = none := rfl
  have h3 : nodeEnv.structs "Node" = some [nodeNextField] := rfl
  simp only [c1StartSchema, SchemaNew] at h
  simp [schemaF, SchemaNew, h1, h2, h3, h]

lemma c1_stepL (n : Nat)
    (h : schemaF nodeEnv NewSchemer n (.fromType (.ptr (.struct "Node"))) [] = none) :
    schemaF nodeEnv NewSchemer (n + 1)
      (.fieldsLoop (.struct "Node") 1 [nodeNextField] c1StartSchema) [] = none := by
  have h1 : SCache.get ([] : SCache) (Ty.ptr (Ty.struct "Node")) = none := rfl
  simp [schemaF, nodeNextField, h1, h]

lemma c1_stepB (n : Nat)
    (h : schemaF nodeEnv NewSchemer n (.fromType (.struct "Node")) [] = none) :
    schemaF nodeEnv NewSchemer (n + 1) (.fromType (.ptr (.struct "Node"))) [] = none := by
  have h1 : SCache.get ([] : SCache) (Ty.ptr (Ty.struct "Node")) = none := rfl
  have h2 : nodeEnv.customSchema (Ty.ptr (Ty.struct "Node")) = none := rfl
  simp [schemaF, h1, h2, h]

/-- C1 (code bug).  `createStructSchema` registers the struct in the
memoization cache only *after* `schemaFromStruct` has recursed into the
fields, so for the self-referential `type Node struct { Next *Node }` the
synthesizer re-enters `Node` with a still-empty cache and never returns:
`Get` diverges at every call-depth budget instead of terminating via a
pre-registered cache entry as the claim states. -/
theorem schemer_selfref_get_diverges :
    ∀ fuel : Nat, SchemerGetF nodeEnv NewSchemer fuel (.struct "Node") [] = none := by
  have key : ∀ n : Nat,
      schemaF nodeEnv NewSchemer n (.fromType (.struct "Node")) [] = none
      ∧ schemaF nodeEnv NewSchemer n
          (.fieldsLoop (.struct "Node") 1 [nodeNextField] c1StartSchema) [] = none
      ∧ schemaF nodeEnv NewSchemer n (.fromType (.ptr (.struct "Node"))) [] = none := by
    intro n
    induction n with
    | zero => exact ⟨rfl, rfl, rfl⟩
    | succ n ih => exact ⟨c1_stepA n ih.2.1, c1_stepL n ih.2.2, c1_stepB n ih.1⟩
  intro fuel
  cases fuel with
  | zero => rfl
  | succ n => exact (key (n + 1)).1
lemma withType_type (s : OASchema) (t : List String) : (s.withType t).type = t := by
  cases s; rfl

lemma withType_format (s : OASchema) (t : List String) : (s.withType t).format = s.format := by
  cases s; rfl

lemma withType_minimum (s : OASchema) (t : List String) :
    (s.withType t).minimum = s.minimum := by cases s; rfl

lemma withType_properties (s : OASchema) (t : List String) :
    (s.withType t).properties = s.properties := by cases s; rfl

lemma withType_required (s : OASchema) (t : List String) :
    (s.withType t).required = s.required := by cases s; rfl

lemma withType_items (s : OASchema) (t : List String) : (s.withType t).items = s.items := by
  cases s; rfl

lemma withType_additionalProperties (s : OASchema) (t : List String) :
    (s.withType t).additionalProperties = s.additionalProperties := by cases s; rfl

lemma withType_default (s : OASchema) (t : List String) :
    (s.withType t).default = s.default := by cases s; rfl

lemma withType_description (s : OASchema) (t : List String) :
    (s.withType t).description = s.description := by cases s; rfl

/-- C7.  Nullable-pointer law: synthesizing a (not yet cached) pointer type
runs the pointee's synthesis on the same cache and returns the pointee's
schema with `null` appended to its type set — every other schema component,
the `name`, the `noRef` flag and the resulting cache state are exactly those
of the pointee. -/
theorem pointer_schema_adds_null (E : SchemaEnv) (hWF : E.WF) (S : Schemer)
    (fuel : Nat) (T : Ty) (c c' : SCache) (ps : Schema)
    (hmiss : SCache.get c (.ptr T) = none)
    (h : SchemerGetF E S (fuel + 1) (.ptr T) c = some (c', .ok ps)) :
    ∃ ts : Schema, SchemerGetF E S fuel T c = some (c', .ok ts)
      ∧ ps.schema.type = ts.schema.type ++ [openapiNullType]
      ∧ (∀ x : String, x ∈ ps.schema.type ↔ x ∈ ts.schema.type ∨ x = openapiNullType)
      ∧ ps.schema.format = ts.schema.format
      ∧ ps.schema.minimum = ts.schema.minimum
      ∧ ps.schema.properties = ts.schema.properties
      ∧ ps.schema.required = ts.schema.required
      ∧ ps.schema.items = ts.schema.items
      ∧ ps.schema.additionalProperties = ts.schema.additionalProperties
      ∧ ps.schema.default = ts.schema.default
      ∧ ps.schema.description = ts.schema.description
      ∧ ps.noRef = ts.noRef ∧ ps.name = ts.name ∧ ps.refPath = ts.refPath := by
  have hvf := hWF (.ptr T) (fun n hn => Ty.noConfusion hn)
  simp only [SchemerGetF, schemaFromTypeF, schemaF, hmiss, hvf.1] at h
  cases hv : schemaF E S fuel (.fromType T) c with
  | none => rw [hv] at h; simp at h
  | some o =>
    rw [hv] at h
    obtain ⟨c1, r⟩ := o
    cases r with
    | error e => simp at h
    | ok ts =>
      simp only [applyExtensions, hvf.2.1, Option.some.injEq, Prod.mk.injEq,
        Except.ok.injEq] at h
      obtain ⟨hc, hps⟩ := h
      subst hc
      refine ⟨ts, ?_, ?_, ?_, ?_, ?_, ?_, ?_, ?_, ?_, ?_, ?_, ?_, ?_, ?_⟩
      · rw [SchemerGetF, schemaFromTypeF]; exact hv
      · rw [← hps]; exact withType_type ts.schema _
      · intro x
        rw [← hps]
        simp [withType_type]
      · rw [← hps]; exact withType_format ts.schema _
      · rw [← hps]; exact withType_minimum ts.schema _
      · rw [← hps]; exact withType_properties ts.schema _
      · rw [← hps]; exact withType_required ts.schema _
      · rw [← hps]; exact withType_items ts.schema _
      · rw [← hps]; exact withType_additionalProperties ts.schema _
      · rw [← hps]; exact withType_default ts.schema _
      · rw [← hps]; exact withType_description ts.schema _
      · rw [← hps]
      · rw [← hps]
      · rw [← hps]

/-- The schema the synthesizer produces for `*bool`. -/
def c7PtrBool : Schema :=
  { SchemaNew with schema := OASchema.empty.withType [openapiBooleanType, openapiNullType] }

/-- Witness for C7 at `T = bool` on the fresh schemer: the pointer schema's
type set is `[boolean, null]`, the pointee's plus `null`. -/
theorem pointer_schema_adds_null_witness :
    SCache.get ([] : SCache) (.ptr .bool) = none
    ∧ SchemerGetF c5Env NewSchemer 2 (.ptr .bool) [] = some ([], .ok c7PtrBool)
    ∧ ∃ ts : Schema, SchemerGetF c5Env NewSchemer 1 .bool [] = some ([], .ok ts)
        ∧ c7PtrBool.schema.type = ts.schema.type ++ [openapiNullType] :=
  ⟨rfl, rfl,
    (pointer_schema_adds_null c5Env (fun _ _ => ⟨rfl, rfl, rfl⟩) NewSchemer 1
        .bool [] [] c7PtrBool rfl rfl).imp (fun _ h => ⟨h.1, h.2.1⟩)⟩

lemma updateFromTags_In (t : OATags) (p : OAParameter) :
    (updateFromTags t p).1.In = p.In := by
  simp only [updateFromTags]
  repeat' split
  all_goals rfl

lemma setDefaults_path_required (p : OAParameter) (t : OATags) (p' : OAParameter)
    (h : setDefaults p t = (p', none)) (hin : p.In = "path") : p'.Required = true := by
  obtain ⟨nm, inl, rq, ex, dp, ar, st, sc⟩ := p
  simp only at hin
  subst hin
  by_cases hs : st = ""
  · simp [setDefaults, hs, defaultStyle] at h
    subst h
    rfl
  · simp only [setDefaults, hs, if_false, defaultStyle] at h
    by_cases hf : st = "form" ∧ t.explode = ""
    · simp [hf] at h
      subst h
      rfl
    · simp [hf] at h
      subst h
      rfl


lemma setDefaults_path_required2 (q : OAParameter) (t : OATags)
    (h2 : (setDefaults q t).2 = none) (hin : q.In = "path") :
    (setDefaults q t).1.Required = true := by
  refine setDefaults_path_required q t (setDefaults q t).1 ?_ hin
  rw [← h2]

/-- C9.  Every parameter `FromInfo` successfully produces for a path-location
`Info` has `Required = true`: `setDefaults` forces it after the tag parsing,
regardless of any `required` tag. -/
theorem path_param_always_required (E : SchemaEnv) (S : Schemer) (fuel : Nat)
    (info : Info) (c c' : SCache) (p : OAParameter)
    (h : FromInfoF E S fuel info c = some (c', p, none))
    (hpath : info.Source = "path") : p.Required = true := by
  simp only [FromInfoF] at h
  cases hg : SchemerGetF E S fuel info.Type' c with
  | none => rw [hg] at h; simp at h
  | some o =>
    rw [hg] at h
    obtain ⟨c1, r⟩ := o
    cases r with
    | error e => simp at h
    | ok schema =>
      simp only [] at h
      split at h
      · simp at h
      · split at h
        · simp at h
        · split at h
          · simp at h
          · split at h
            · simp at h
            · simp only [Option.some.injEq, Prod.mk.injEq] at h
              obtain ⟨-, hp, -⟩ := h
              rw [← hp]
              refine setDefaults_path_required2 _ _ ?_ ?_
              · assumption
              · rw [updateFromTags_In]
                exact hpath

/-- A path-location parameter `Info` (`ID routey.Path[int]`). -/
def c9Info : Info :=
  { Name := "id", Source := "path", Type' := .int .w,
    Field := { name := "ID", type := .struct "PathInt" }, Struct := .struct "Params9" }

/-- The parameter `FromInfo` produces for `c9Info`. -/
def c9Param : OAParameter :=
  { Name := "id", In := "path", Required := true, Style := "simple",
    Schema := some (OASchema.empty.withType [openapiIntegerType]) }

/-- Witness for C9: the concrete path parameter comes out `Required`. -/
theorem path_param_always_required_witness :
    (FromInfoF c5Env NewSchemer 1 c9Info [] = some ([], c9Param, none)
      ∧ c9Info.Source = "path")
    ∧ c9Param.Required = true :=
  ⟨⟨rfl, rfl⟩,
    path_param_always_required c5Env NewSchemer 1 c9Info [] [] c9Param rfl rfl⟩
lemma resolveRefs_unresolved (c : VCompiler) (refs : List String) (r : String)
    (hload : c.loader = noopLoaderLoad) (hmem : r ∈ refs)
    (hmiss : c.resources.lookup r = none) :
    ∃ e, resolveRefs c refs = some e := by
  induction refs with
  | nil => cases hmem
  | cons a rest ih =>
    simp only [resolveRefs]
    by_cases ha : (c.resources.lookup a).isSome
    · rw [if_pos ha]
      rcases List.mem_cons.mp hmem with rfl | hmem'
      · rw [hmiss] at ha; simp at ha
      · exact ih hmem'
    · rw [if_neg ha, hload]
      exact ⟨_, rfl⟩

/-- C8.  The validator's contract: (i) `Add` fails whenever the engine's
JSON unmarshalling fails (malformed schema JSON is rejected); (ii) `Add`
fails whenever the just-added document mentions a reference that does not
resolve among the locally added resources, because resolution then falls to
the configured loader; (iii) the configured loader is `noopLoader`, whose
every load attempt fails with `ErrSchemaLoad` — remote schema loading is
never performed —, and `NewValidator` installs it; (iv) `Validate` on a name
that was never successfully added returns `ErrSchemaNotFound`, for every
input and without invoking the input decoding or the compiled schema's
evaluation. -/
theorem validator_add_validate_contract :
    (∀ (unmarshal : String → Except GoErr VDoc) (v : Validator) (name s : String)
        (e : GoErr), unmarshal s = .error e →
      ∃ e', (ValidatorAdd unmarshal v name s).2 = some e')
    ∧ (∀ (unmarshal : String → Except GoErr VDoc) (v : Validator) (name s : String)
        (doc : VDoc) (r : String), unmarshal s = .ok doc → r ∈ doc.refs →
      v.compiler.loader = noopLoaderLoad →
      (compilerAddResource v.compiler name doc).resources.lookup r = none →
      ∃ e', (ValidatorAdd unmarshal v name s).2 = some e')
    ∧ (∀ url : String, noopLoaderLoad url = .error .errSchemaLoad)
    ∧ NewValidator.compiler.loader = noopLoaderLoad
    ∧ (∀ (decode : String → Option GoErr) (evalCompiled : VDoc → String → Option GoErr)
        (v : Validator) (name input : String),
      v.schemas.lookup name = none →
      ValidatorValidate decode evalCompiled v name input = some .errSchemaNotFound) := by
  refine ⟨?_, ?_, fun _ => rfl, rfl, ?_⟩
  · intro unmarshal v name s e hu
    simp [ValidatorAdd, hu]
  · intro unmarshal v name s doc r hu hr hload hmiss
    obtain ⟨e, he⟩ := resolveRefs_unresolved (compilerAddResource v.compiler name doc)
      doc.refs r hload hr hmiss
    simp only [compilerAddResource] at he
    simp only [ValidatorAdd, hu, compilerCompile, compilerAddResource, List.lookup,
      beq_self_eq_true, if_true, he]
    exact ⟨_, rfl⟩
  · intro decode evalCompiled v name input hmiss
    simp [ValidatorValidate, hmiss]

/-- The engine unmarshaller of the C8 witness: one malformed document, all
others parsing to a document referencing `/external`. -/
def c8Unmarshal : String → Except GoErr VDoc := fun s =>
  if s = "not json" then .error (.msg "invalid json") else .ok { refs := ["/external"] }

/-- Witness for C8 at concrete inputs. -/
theorem validator_add_validate_contract_witness :
    (∃ e', (ValidatorAdd c8Unmarshal NewValidator "a" "not json").2 = some e')
    ∧ (∃ e', (ValidatorAdd c8Unmarshal NewValidator "a" "x").2 = some e')
    ∧ ValidatorValidate (fun _ => none) (fun _ _ => none) NewValidator "missing" "1"
        = some .errSchemaNotFound :=
  ⟨validator_add_validate_contract.1 c8Unmarshal NewValidator "a" "not json"
      (.msg "invalid json") rfl,
   validator_add_validate_contract.2.1 c8Unmarshal NewValidator "a" "x"
      { refs := ["/external"] } "/external" rfl (by simp) rfl rfl,
   validator_add_validate_contract.2.2.2.2 (fun _ => none) (fun _ _ => none)
      NewValidator "missing" "1" rfl⟩
